import Mathlib

/-!
Verification development for the LULC tile classification engine
(tile selector / standalone batch classifier).

The classifier, band statistics, tiling, mask export and accuracy
evaluation logic are embedded shallowly: real-valued pixel statistics and
features are modelled as rationals, images as functions or lists of pixel
rows, and the Python control flow (early `return` cascades, sequential
array writes, `max(dict, key=dict.get)`) is translated into structurally
identical Lean definitions.
-/

/-! ## Tile classifier (`classify_tile`)

`TileFeatures` collects the scalar features `classify_tile` computes from a
tile before entering its rule cascade: per-channel means `b, g, r`, the HSV
means (of which `saturation` and `brightness` are used), edge density,
texture variance, color variance, the NDVI-like index, and the normalized
RGB ratios.  The cascade itself is a pure function of these values. -/

structure TileFeatures where
  b : ℚ
  g : ℚ
  r : ℚ
  hue : ℚ
  saturation : ℚ
  brightness : ℚ
  edge_density : ℚ
  texture_variance : ℚ
  color_variance : ℚ
  ndvi : ℚ
  b_ratio : ℚ
  g_ratio : ℚ

/-- The fixed closed list of the 10 land-cover categories (`CATEGORIES`). -/
def CATEGORIES : List String :=
  ["AnnualCrop", "Forest", "HerbaceousVegetation", "Highway", "Industrial",
   "Pasture", "PermanentCrop", "Residential", "River", "SeaLake"]

/-- The fallback score table, in the dict insertion order of the source:
Pasture, HerbaceousVegetation, Industrial, Forest, AnnualCrop.  Each score
is the sum of the increments the three `if`/`else` blocks add. -/
def fallback_scores (f : TileFeatures) : List (String × ℕ) :=
  [("Pasture", (if f.g_ratio > 0.34 then 2 else 0) +
      (if f.edge_density > 0.10 then 0 else 1) +
      (if f.brightness > 120 then 1 else 0)),
   ("HerbaceousVegetation", (if f.g_ratio > 0.34 then 1 else 0) +
      (if f.brightness > 120 then 1 else 0)),
   ("Industrial", (if f.edge_density > 0.10 then 0 else 1) +
      (if f.brightness > 120 then 0 else 1)),
   ("Forest", (if f.edge_density > 0.10 then 1 else 0) +
      (if f.brightness > 120 then 0 else 1)),
   ("AnnualCrop", (if f.edge_density > 0.10 then 1 else 0))]

/-- Python's `max(scores, key=scores.get)`: scan in insertion order, keep
the current best unless a later entry is strictly greater, so the first
maximum encountered wins. -/
def py_max : List (String × ℕ) → Option (String × ℕ)
  | [] => none
  | kv :: rest => some (rest.foldl (fun best x => if best.2 < x.2 then x else best) kv)

/-- `return max(scores, key=scores.get)` of the default-classification
block (the score dict is never empty, so the `none` branch is dead). -/
def fallback_classify (f : TileFeatures) : String :=
  match py_max (fallback_scores f) with
  | some kv => kv.1
  | none => ""

/-- INDUSTRIAL DETECTION, then the default scoring block. -/
def rule_industrial (f : TileFeatures) : String :=
  if f.color_variance < 30 ∧ f.saturation < 50 ∧ f.edge_density < 0.10 then "Industrial"
  else fallback_classify f

/-- VEGETATION (Pasture, Herbaceous); `if`/`elif` as in the source. -/
def rule_vegetation (f : TileFeatures) : String :=
  if f.g_ratio > 0.35 ∧ f.ndvi > 0.05 then
    (if f.color_variance < 20 ∧ f.saturation < 60 then "Pasture"
     else if f.color_variance ≥ 20 ∨ f.saturation ≥ 60 then "HerbaceousVegetation"
     else rule_industrial f)
  else rule_industrial f

/-- PERMANENT CROP DETECTION. -/
def rule_permanent_crop (f : TileFeatures) : String :=
  if f.g > f.r ∧ f.g > f.b ∧ f.saturation > 30 then
    (if f.edge_density < 0.10 ∧ f.brightness > 100 ∧ f.color_variance < 25 then "PermanentCrop"
     else rule_vegetation f)
  else rule_vegetation f

/-- ANNUAL CROP DETECTION. -/
def rule_annual_crop (f : TileFeatures) : String :=
  if f.g > f.r ∧ f.g > f.b ∧ f.edge_density > 0.08 then
    (if f.saturation > 35 ∧ f.color_variance > 12 ∧ f.brightness > 90 then "AnnualCrop"
     else rule_permanent_crop f)
  else rule_permanent_crop f

/-- FOREST DETECTION. -/
def rule_forest (f : TileFeatures) : String :=
  if f.g > f.r ∧ f.g > f.b ∧ f.brightness < 140 ∧ f.ndvi > 0.1 ∧
      (f.edge_density > 0.12 ∨ f.texture_variance > 100) then "Forest"
  else rule_annual_crop f

/-- HIGHWAY DETECTION. -/
def rule_highway (f : TileFeatures) : String :=
  if f.saturation < 35 ∧ f.edge_density > 0.08 ∧ f.edge_density < 0.20 then
    (if f.color_variance < 28 ∧ f.brightness < 130 then "Highway"
     else rule_forest f)
  else rule_forest f

/-- RESIDENTIAL DETECTION. -/
def rule_residential (f : TileFeatures) : String :=
  if f.edge_density > 0.10 ∧ f.color_variance > 22 ∧ f.texture_variance > 60 then
    (if f.g_ratio < 0.40 ∨ f.saturation < 70 then "Residential"
     else rule_highway f)
  else rule_highway f

/-- `classify_tile`'s decision cascade, starting with WATER DETECTION.
Each Python `return` is a leaf; falling past a rule continues with the
next rule function. -/
def classify_tile (f : TileFeatures) : String :=
  if (f.b > f.g ∧ f.b > f.r ∧ f.b > 80) ∨ (f.b_ratio > 0.38 ∧ f.brightness < 150) then
    (if f.edge_density < 0.08 ∧ f.color_variance < 25 then "SeaLake"
     else if f.edge_density ≥ 0.08 ∨ f.color_variance ≥ 25 then "River"
     else rule_residential f)
  else rule_residential f

/-- The input reaches the DEFAULT CLASSIFICATION block: none of the eight
rule conditions fires (for the water and vegetation rules the two inner
branches together cover the outer condition, so firing is equivalent to
the outer condition holding). -/
def reaches_fallback (f : TileFeatures) : Prop :=
  ¬((f.b > f.g ∧ f.b > f.r ∧ f.b > 80) ∨ (f.b_ratio > 0.38 ∧ f.brightness < 150)) ∧
  ¬(f.edge_density > 0.10 ∧ f.color_variance > 22 ∧ f.texture_variance > 60 ∧
      (f.g_ratio < 0.40 ∨ f.saturation < 70)) ∧
  ¬(f.saturation < 35 ∧ f.edge_density > 0.08 ∧ f.edge_density < 0.20 ∧
      f.color_variance < 28 ∧ f.brightness < 130) ∧
  ¬(f.g > f.r ∧ f.g > f.b ∧ f.brightness < 140 ∧ f.ndvi > 0.1 ∧
      (f.edge_density > 0.12 ∨ f.texture_variance > 100)) ∧
  ¬(f.g > f.r ∧ f.g > f.b ∧ f.edge_density > 0.08 ∧ f.saturation > 35 ∧
      f.color_variance > 12 ∧ f.brightness > 90) ∧
  ¬(f.g > f.r ∧ f.g > f.b ∧ f.saturation > 30 ∧ f.edge_density < 0.10 ∧
      f.brightness > 100 ∧ f.color_variance < 25) ∧
  ¬(f.g_ratio > 0.35 ∧ f.ndvi > 0.05) ∧
  ¬(f.color_variance < 30 ∧ f.saturation < 50 ∧ f.edge_density < 0.10)

lemma rule_industrial_skip (f : TileFeatures)
    (h : ¬(f.color_variance < 30 ∧ f.saturation < 50 ∧ f.edge_density < 0.10)) :
    rule_industrial f = fallback_classify f := by
  unfold rule_industrial
  exact if_neg h

lemma rule_vegetation_skip (f : TileFeatures)
    (h : ¬(f.g_ratio > 0.35 ∧ f.ndvi > 0.05)) :
    rule_vegetation f = rule_industrial f := by
  unfold rule_vegetation
  exact if_neg h

lemma rule_permanent_crop_skip (f : TileFeatures)
    (h : ¬(f.g > f.r ∧ f.g > f.b ∧ f.saturation > 30 ∧ f.edge_density < 0.10 ∧
      f.brightness > 100 ∧ f.color_variance < 25)) :
    rule_permanent_crop f = rule_vegetation f := by
  unfold rule_permanent_crop
  split_ifs with h1 h2
  · exact absurd ⟨h1.1, h1.2.1, h1.2.2, h2.1, h2.2.1, h2.2.2⟩ h
  · rfl
  · rfl

lemma rule_annual_crop_skip (f : TileFeatures)
    (h : ¬(f.g > f.r ∧ f.g > f.b ∧ f.edge_density > 0.08 ∧ f.saturation > 35 ∧
      f.color_variance > 12 ∧ f.brightness > 90)) :
    rule_annual_crop f = rule_permanent_crop f := by
  unfold rule_annual_crop
  split_ifs with h1 h2
  · exact absurd ⟨h1.1, h1.2.1, h1.2.2, h2.1, h2.2.1, h2.2.2⟩ h
  · rfl
  · rfl

lemma rule_forest_skip (f : TileFeatures)
    (h : ¬(f.g > f.r ∧ f.g > f.b ∧ f.brightness < 140 ∧ f.ndvi > 0.1 ∧
      (f.edge_density > 0.12 ∨ f.texture_variance > 100))) :
    rule_forest f = rule_annual_crop f := by
  unfold rule_forest
  exact if_neg h

lemma rule_highway_skip (f : TileFeatures)
    (h : ¬(f.saturation < 35 ∧ f.edge_density > 0.08 ∧ f.edge_density < 0.20 ∧
      f.color_variance < 28 ∧ f.brightness < 130)) :
    rule_highway f = rule_forest f := by
  unfold rule_highway
  split_ifs with h1 h2
  · exact absurd ⟨h1.1, h1.2.1, h1.2.2, h2.1, h2.2⟩ h
  · rfl
  · rfl

lemma rule_residential_skip (f : TileFeatures)
    (h : ¬(f.edge_density > 0.10 ∧ f.color_variance > 22 ∧ f.texture_variance > 60 ∧
      (f.g_ratio < 0.40 ∨ f.saturation < 70))) :
    rule_residential f = rule_highway f := by
  unfold rule_residential
  split_ifs with h1 h2
  · exact absurd ⟨h1.1, h1.2.1, h1.2.2, h2⟩ h
  · rfl
  · rfl

lemma classify_tile_of_reaches_fallback (f : TileFeatures) (h : reaches_fallback f) :
    classify_tile f = fallback_classify f := by
  obtain ⟨h1, h2, h3, h4, h5, h6, h7, h8⟩ := h
  unfold classify_tile
  rw [if_neg h1, rule_residential_skip f h2, rule_highway_skip f h3, rule_forest_skip f h4,
    rule_annual_crop_skip f h5, rule_permanent_crop_skip f h6, rule_vegetation_skip f h7,
    rule_industrial_skip f h8]

lemma fallback_classify_mem (f : TileFeatures) :
    fallback_classify f ∈ (["Pasture", "HerbaceousVegetation", "Industrial", "Forest"] : List String) := by
  by_cases ha : f.g_ratio > (0.34 : ℚ) <;> by_cases he : f.edge_density > (0.10 : ℚ) <;>
    by_cases hd : f.brightness > (120 : ℚ) <;>
  all_goals (simp only [fallback_classify, fallback_scores, py_max, ha, he, hd,
    if_true, if_false]; decide)

lemma fallback_classify_mem_categories (f : TileFeatures) :
    fallback_classify f ∈ CATEGORIES := by
  have h := fallback_classify_mem f
  simp only [List.mem_cons, List.not_mem_nil, or_false] at h
  rcases h with h | h | h | h <;> rw [h] <;> decide

lemma rule_industrial_mem (f : TileFeatures) : rule_industrial f ∈ CATEGORIES := by
  unfold rule_industrial
  split_ifs
  · decide
  · exact fallback_classify_mem_categories f

lemma rule_vegetation_mem (f : TileFeatures) : rule_vegetation f ∈ CATEGORIES := by
  unfold rule_vegetation
  split_ifs <;> first | decide | exact rule_industrial_mem f

lemma rule_permanent_crop_mem (f : TileFeatures) : rule_permanent_crop f ∈ CATEGORIES := by
  unfold rule_permanent_crop
  split_ifs <;> first | decide | exact rule_vegetation_mem f

lemma rule_annual_crop_mem (f : TileFeatures) : rule_annual_crop f ∈ CATEGORIES := by
  unfold rule_annual_crop
  split_ifs <;> first | decide | exact rule_permanent_crop_mem f

lemma rule_forest_mem (f : TileFeatures) : rule_forest f ∈ CATEGORIES := by
  unfold rule_forest
  split_ifs <;> first | decide | exact rule_annual_crop_mem f

lemma rule_highway_mem (f : TileFeatures) : rule_highway f ∈ CATEGORIES := by
  unfold rule_highway
  split_ifs <;> first | decide | exact rule_forest_mem f

lemma rule_residential_mem (f : TileFeatures) : rule_residential f ∈ CATEGORIES := by
  unfold rule_residential
  split_ifs <;> first | decide | exact rule_highway_mem f

/-- C1: every syntactically valid feature vector is mapped to exactly one
of the 10 land-cover categories; the cascade never yields `Cloud` and is
total (it is a Lean function, so it can neither raise nor return nothing). -/
theorem c1_total_classification (f : TileFeatures) :
    classify_tile f ∈ CATEGORIES ∧ classify_tile f ≠ "Cloud" := by
  have hmem : classify_tile f ∈ CATEGORIES := by
    unfold classify_tile
    split_ifs <;> first | decide | exact rule_residential_mem f
  refine ⟨hmem, fun hc => ?_⟩
  have hcl : ("Cloud" : String) ∉ CATEGORIES := by decide
  exact hcl (hc ▸ hmem)

/-- The maximal fallback score. -/
def max_score_val (scores : List (String × ℕ)) : ℕ :=
  (scores.map Prod.snd).foldr max 0

/-- Modelled from the spec's words (tie-break policy): the category
appearing first in the fixed insertion order among those whose score
equals the maximal score. -/
def spec_tie_break_winner (scores : List (String × ℕ)) : Option String :=
  (scores.find? (fun kv => kv.2 == max_score_val scores)).map Prod.fst

/-- C2: when the fallback stage is reached and at least two scored
categories share the maximal score, the returned category is the first
one in the insertion order {Pasture, HerbaceousVegetation, Industrial,
Forest, AnnualCrop} that attains the maximum. -/
theorem c2_fallback_tie_break (f : TileFeatures) (h : reaches_fallback f)
    (htie : 2 ≤ ((fallback_scores f).filter
      (fun kv => kv.2 == max_score_val (fallback_scores f))).length) :
    some (classify_tile f) = spec_tie_break_winner (fallback_scores f) := by
  rw [classify_tile_of_reaches_fallback f h]
  by_cases ha : f.g_ratio > (0.34 : ℚ) <;> by_cases he : f.edge_density > (0.10 : ℚ) <;>
    by_cases hd : f.brightness > (120 : ℚ) <;>
  all_goals (simp only [fallback_classify, fallback_scores, py_max, spec_tie_break_winner,
    max_score_val, ha, he, hd, if_true, if_false]; decide)

/-- A concrete feature vector that fails all eight cascade rules and
produces the fallback scores {Pasture 2, Herbaceous 1, Industrial 1,
Forest 2, AnnualCrop 1} (a two-way tie at the top). -/
def witness_features : TileFeatures :=
  { b := 20, g := 44, r := 40, hue := 0, saturation := 100, brightness := 80,
    edge_density := 0.15, texture_variance := 50, color_variance := 10,
    ndvi := 1/21, b_ratio := 5/26, g_ratio := 11/26 }

lemma witness_features_reaches : reaches_fallback witness_features := by
  unfold reaches_fallback witness_features
  norm_num

lemma witness_features_scores : fallback_scores witness_features =
    [("Pasture", 2), ("HerbaceousVegetation", 1), ("Industrial", 1),
     ("Forest", 2), ("AnnualCrop", 1)] := by
  unfold fallback_scores witness_features
  norm_num

/-- Witness for C2 at `witness_features`: Pasture and Forest tie at
score 2 and Pasture, first in insertion order, wins. -/
theorem c2_fallback_tie_break_witness :
    reaches_fallback witness_features ∧
    2 ≤ ((fallback_scores witness_features).filter
      (fun kv => kv.2 == max_score_val (fallback_scores witness_features))).length ∧
    some (classify_tile witness_features) = spec_tie_break_winner (fallback_scores witness_features) := by
  have h1 : reaches_fallback witness_features := witness_features_reaches
  have h2 : 2 ≤ ((fallback_scores witness_features).filter
      (fun kv => kv.2 == max_score_val (fallback_scores witness_features))).length := by
    rw [witness_features_scores]
    decide
  exact ⟨h1, h2, c2_fallback_tie_break witness_features h1 h2⟩

/-- C9: an input that reaches the fallback stage is never classified as
AnnualCrop; the fallback's outputs lie in {Pasture, HerbaceousVegetation,
Industrial, Forest}. -/
theorem c9_fallback_never_annual_crop (f : TileFeatures) (h : reaches_fallback f) :
    classify_tile f ∈ (["Pasture", "HerbaceousVegetation", "Industrial", "Forest"] : List String) ∧
    classify_tile f ≠ "AnnualCrop" := by
  rw [classify_tile_of_reaches_fallback f h]
  refine ⟨fallback_classify_mem f, fun hA => ?_⟩
  have h4 := fallback_classify_mem f
  rw [hA] at h4
  exact absurd h4 (by decide)

/-- Witness for C9 at `witness_features`. -/
theorem c9_fallback_never_annual_crop_witness :
    reaches_fallback witness_features ∧
    (classify_tile witness_features ∈
      (["Pasture", "HerbaceousVegetation", "Industrial", "Forest"] : List String) ∧
    classify_tile witness_features ≠ "AnnualCrop") :=
  ⟨witness_features_reaches,
    c9_fallback_never_annual_crop witness_features witness_features_reaches⟩

/-! ## Band statistics analyzer (`analyze_image_bands`)

An image is a list of BGR pixel triples (the order `cv2.split` yields).
The per-channel means are exact rationals; the ratio of a channel mean to
the total mean is computed by IEEE-style division, modelled as `Option ℚ`:
a zero denominator yields `none` (the float code produces NaN/inf there,
which is not a rational value).  `0.40 < NaN` is false in IEEE semantics,
so the green-bias flag compares through the `Option`. -/

def float_div (a b : ℚ) : Option ℚ :=
  if b = 0 then none else some (a / b)

def float_gt (x : Option ℚ) (c : ℚ) : Bool :=
  match x with
  | some q => decide (c < q)
  | none => false

structure BandStats where
  b_mean : ℚ
  g_mean : ℚ
  r_mean : ℚ
  b_ratio : Option ℚ
  g_ratio : Option ℚ
  r_ratio : Option ℚ
  green_bias : Bool

def channel_mean (l : List ℚ) : ℚ := l.sum / l.length

/-- `analyze_image_bands`: per-channel means, then each ratio is the
channel mean divided by `total_mean` (the source divides unconditionally;
there is no `total_mean == 0` guard), then
`green_bias = ratios['green'] > 0.40`. -/
def analyze_image_bands (pixels : List (ℚ × ℚ × ℚ)) : BandStats :=
  let b_mean := channel_mean (pixels.map (fun p => p.1))
  let g_mean := channel_mean (pixels.map (fun p => p.2.1))
  let r_mean := channel_mean (pixels.map (fun p => p.2.2))
  let total_mean := b_mean + g_mean + r_mean
  { b_mean := b_mean, g_mean := g_mean, r_mean := r_mean,
    b_ratio := float_div b_mean total_mean,
    g_ratio := float_div g_mean total_mean,
    r_ratio := float_div r_mean total_mean,
    green_bias := float_gt (float_div g_mean total_mean) 0.40 }

/-- C5 (evaluation at the failing input): on an all-zero image the band
analyzer divides the zero channel means by the zero total mean — the
ratios are not rational values (`none`, the float code's NaN), in
particular not the claimed `1/3` fallback; only the `green_bias = False`
part of the claim holds (NaN > 0.40 is false). -/
theorem c5_zero_image_divides_by_zero :
    (analyze_image_bands [(0, 0, 0)]).b_ratio = none ∧
    (analyze_image_bands [(0, 0, 0)]).g_ratio = none ∧
    (analyze_image_bands [(0, 0, 0)]).r_ratio = none ∧
    (analyze_image_bands [(0, 0, 0)]).g_ratio ≠ some (1/3) ∧
    (analyze_image_bands [(0, 0, 0)]).green_bias = false := by
  norm_num [analyze_image_bands, channel_mean, float_div, float_gt]
  intro h
  exact Option.noConfusion h

/-! ## Tiling engine (`apply_tile_size`, `extract_tiles`)

Images are functions from pixel coordinates to a (grayscale) value; a
padded canvas is black (0) outside the source image, which is pasted at
the origin.  `apply_tile_size` computes `tiles_x = ceil(width/tile_size)`
and `tiles_y = ceil(height/tile_size)` (exact ceiling division, `⌈/⌉` on
naturals) and crops the `tile_size × tile_size` cells row-major. -/

structure GridTile where
  row : ℕ
  col : ℕ
  x : ℕ
  y : ℕ
  tile_img : List (List ℕ)

def padded_pixel (img : ℕ → ℕ → ℕ) (w h : ℕ) (x y : ℕ) : ℕ :=
  if x < w ∧ y < h then img x y else 0

def crop_tile (canvas : ℕ → ℕ → ℕ) (x y t : ℕ) : List (List ℕ) :=
  (List.range t).map (fun j => (List.range t).map (fun i => canvas (x + i) (y + j)))

def grid_tile (img : ℕ → ℕ → ℕ) (w h t row col : ℕ) : GridTile :=
  { row := row, col := col, x := col * t, y := row * t,
    tile_img := crop_tile (padded_pixel img w h) (col * t) (row * t) t }

def apply_tile_size (img : ℕ → ℕ → ℕ) (w h t : ℕ) : List GridTile :=
  (List.range (h ⌈/⌉ t)).flatMap (fun row =>
    (List.range (w ⌈/⌉ t)).map (fun col => grid_tile img w h t row col))

/-- A point of the canvas lies inside a tile's `t × t` footprint. -/
def tile_contains (tl : GridTile) (t x y : ℕ) : Prop :=
  tl.x ≤ x ∧ x < tl.x + t ∧ tl.y ≤ y ∧ y < tl.y + t

lemma grid_flatMap {α : Type} (f : ℕ → ℕ → α) (R C : ℕ) :
    (List.range R).flatMap (fun r => (List.range C).map (f r)) =
    (List.range (R * C)).map (fun n => f (n / C) (n % C)) := by
  induction R with
  | zero => simp
  | succ R ih =>
    rw [List.range_succ, List.flatMap_append, ih, Nat.succ_mul, List.range_add, List.map_append]
    congr 1
    simp only [List.flatMap_cons, List.flatMap_nil, List.append_nil, List.map_map]
    apply List.map_congr_left
    intro i hi
    rw [List.mem_range] at hi
    have hC : 0 < C := Nat.pos_of_ne_zero (by omega)
    simp only [Function.comp_apply]
    congr 1
    · rw [mul_comm R C, Nat.mul_add_div hC, Nat.div_eq_of_lt hi, add_zero]
    · rw [mul_comm R C, Nat.mul_add_mod, Nat.mod_eq_of_lt hi]

lemma apply_tile_size_eq (img : ℕ → ℕ → ℕ) (w h t : ℕ) :
    apply_tile_size img w h t = (List.range ((h ⌈/⌉ t) * (w ⌈/⌉ t))).map
      (fun n => grid_tile img w h t (n / (w ⌈/⌉ t)) (n % (w ⌈/⌉ t))) :=
  grid_flatMap _ _ _

lemma le_ceilDiv_mul (a b : ℕ) (hb : 0 < b) : a ≤ (a ⌈/⌉ b) * b := by
  have := le_smul_ceilDiv hb (b := a)
  rwa [smul_eq_mul, mul_comm] at this

lemma ceilDiv_mul_lt_add (a b : ℕ) (hb : 0 < b) : (a ⌈/⌉ b) * b < a + b := by
  rw [Nat.ceilDiv_eq_add_pred_div]
  have h1 : (a + b - 1) / b * b ≤ a + b - 1 := Nat.div_mul_le_self _ _
  omega

lemma natCeil_eq_ceilDiv (a b : ℕ) (hb : 0 < b) : ⌈(a : ℚ) / (b : ℚ)⌉₊ = a ⌈/⌉ b := by
  have hb' : (0 : ℚ) < b := by exact_mod_cast hb
  apply le_antisymm
  · rw [Nat.ceil_le, div_le_iff₀ hb']
    exact_mod_cast le_ceilDiv_mul a b hb
  · rw [ceilDiv_le_iff_le_mul hb]
    have h1 : ((a : ℚ) / b) ≤ (⌈(a : ℚ) / b⌉₊ : ℚ) := Nat.le_ceil _
    rw [div_le_iff₀ hb'] at h1
    exact_mod_cast mul_comm ((⌈(a : ℚ) / b⌉₊ : ℚ)) ((b : ℚ)) ▸ h1

lemma cell_unique {t a b q : ℕ} (ht : 0 < t) (hb : b < t)
    (h1 : q * t ≤ a * t + b) (h2 : a * t + b < q * t + t) : q = a := by
  have hq : q ≤ (a * t + b) / t := (Nat.le_div_iff_mul_le ht).2 h1
  have hq2 : (a * t + b) / t < q + 1 := by
    rw [Nat.div_lt_iff_lt_mul ht]
    calc a * t + b < q * t + t := h2
    _ = (q + 1) * t := by ring
  have hd : (a * t + b) / t = a := by
    rw [mul_comm a t, Nat.mul_add_div ht, Nat.div_eq_of_lt hb, add_zero]
  omega

lemma apply_tile_size_getD (img : ℕ → ℕ → ℕ) (w h t n : ℕ) (d : GridTile)
    (hn : n < (h ⌈/⌉ t) * (w ⌈/⌉ t)) :
    (apply_tile_size img w h t).getD n d =
      grid_tile img w h t (n / (w ⌈/⌉ t)) (n % (w ⌈/⌉ t)) := by
  rw [apply_tile_size_eq, List.getD_eq_getElem?_getD]
  simp [List.getElem?_map, List.getElem?_range, hn]

lemma apply_tile_size_length (img : ℕ → ℕ → ℕ) (w h t : ℕ) :
    (apply_tile_size img w h t).length = (h ⌈/⌉ t) * (w ⌈/⌉ t) := by
  rw [apply_tile_size_eq]
  simp

lemma tile_contains_grid_iff (img : ℕ → ℕ → ℕ) (w h t : ℕ) (ht : 0 < t)
    (row col x y : ℕ) :
    tile_contains (grid_tile img w h t row col) t x y ↔ (col = x / t ∧ row = y / t) := by
  unfold tile_contains grid_tile
  simp only
  constructor
  · rintro ⟨hx1, hx2, hy1, hy2⟩
    have hxm : x / t * t + x % t = x := Nat.div_add_mod' x t
    have hym : y / t * t + y % t = y := Nat.div_add_mod' y t
    constructor
    · exact cell_unique ht (Nat.mod_lt x ht) (by omega) (by omega)
    · exact cell_unique ht (Nat.mod_lt y ht) (by omega) (by omega)
  · rintro ⟨hc, hr⟩
    subst hc hr
    have hx1 : x / t * t ≤ x := Nat.div_mul_le_self x t
    have hx2 : x < x / t * t + t := by
      have h1 := Nat.div_add_mod' x t
      have h2 := Nat.mod_lt x ht
      omega
    have hy1 : y / t * t ≤ y := Nat.div_mul_le_self y t
    have hy2 : y < y / t * t + t := by
      have h1 := Nat.div_add_mod' y t
      have h2 := Nat.mod_lt y ht
      omega
    exact ⟨hx1, hx2, hy1, hy2⟩

lemma grid_cover_unique (img : ℕ → ℕ → ℕ) (w h t : ℕ) (ht : 0 < t) (x y : ℕ)
    (hx : x < (w ⌈/⌉ t) * t) (hy : y < (h ⌈/⌉ t) * t) :
    ∃! n, n < (apply_tile_size img w h t).length ∧
      tile_contains ((apply_tile_size img w h t).getD n (grid_tile img w h t 0 0)) t x y := by
  have htX : 0 < w ⌈/⌉ t := by
    rcases Nat.eq_zero_or_pos (w ⌈/⌉ t) with h0 | h0
    · rw [h0] at hx
      omega
    · exact h0
  have hxd : x / t < w ⌈/⌉ t := (Nat.div_lt_iff_lt_mul ht).2 hx
  have hyd : y / t < h ⌈/⌉ t := (Nat.div_lt_iff_lt_mul ht).2 hy
  refine ⟨y / t * (w ⌈/⌉ t) + x / t, ⟨?_, ?_⟩, ?_⟩
  · rw [apply_tile_size_length]
    calc y / t * (w ⌈/⌉ t) + x / t < y / t * (w ⌈/⌉ t) + (w ⌈/⌉ t) := by omega
    _ = (y / t + 1) * (w ⌈/⌉ t) := by ring
    _ ≤ (h ⌈/⌉ t) * (w ⌈/⌉ t) := Nat.mul_le_mul_right _ (by omega)
  · have hn : y / t * (w ⌈/⌉ t) + x / t < (h ⌈/⌉ t) * (w ⌈/⌉ t) := by
      calc y / t * (w ⌈/⌉ t) + x / t < y / t * (w ⌈/⌉ t) + (w ⌈/⌉ t) := by omega
      _ = (y / t + 1) * (w ⌈/⌉ t) := by ring
      _ ≤ (h ⌈/⌉ t) * (w ⌈/⌉ t) := Nat.mul_le_mul_right _ (by omega)
    rw [apply_tile_size_getD img w h t _ _ hn]
    have hdiv : (y / t * (w ⌈/⌉ t) + x / t) / (w ⌈/⌉ t) = y / t := by
      rw [mul_comm (y / t) (w ⌈/⌉ t), Nat.mul_add_div htX, Nat.div_eq_of_lt hxd, add_zero]
    have hmod : (y / t * (w ⌈/⌉ t) + x / t) % (w ⌈/⌉ t) = x / t := by
      rw [mul_comm (y / t) (w ⌈/⌉ t), Nat.mul_add_mod, Nat.mod_eq_of_lt hxd]
    rw [hdiv, hmod, tile_contains_grid_iff img w h t ht]
    exact ⟨rfl, rfl⟩
  · rintro n ⟨hn, hcont⟩
    rw [apply_tile_size_length] at hn
    rw [apply_tile_size_getD img w h t _ _ hn,
      tile_contains_grid_iff img w h t ht] at hcont
    obtain ⟨hc, hr⟩ := hcont
    have h2 := Nat.div_add_mod' n (w ⌈/⌉ t)
    rw [hr, hc] at h2
    omega

/-- C4: for positive `tile_size`, the tiling engine produces exactly
`ceil(w/t) * ceil(h/t)` tiles; tile `n` (row-major) is the cell at row
`n / tiles_x`, column `n % tiles_x`; each tile is exactly `t × t`, cropped
from the zero-padded canvas with the source pasted at the origin; every
pixel of the padded canvas — in particular every original pixel `(x, y)`
with `x < w`, `y < h` — lies in exactly one tile. -/
theorem c4_tiling_partition (img : ℕ → ℕ → ℕ) (w h t : ℕ) (ht : 0 < t) :
    (apply_tile_size img w h t).length = ⌈(w : ℚ) / (t : ℚ)⌉₊ * ⌈(h : ℚ) / (t : ℚ)⌉₊ ∧
    (∀ n, n < (apply_tile_size img w h t).length →
      (apply_tile_size img w h t).getD n (grid_tile img w h t 0 0) =
        grid_tile img w h t (n / (w ⌈/⌉ t)) (n % (w ⌈/⌉ t))) ∧
    (∀ tl ∈ apply_tile_size img w h t,
      tl.x = tl.col * t ∧ tl.y = tl.row * t ∧
      tl.tile_img.length = t ∧ (∀ prow ∈ tl.tile_img, prow.length = t) ∧
      (∀ i j, i < t → j < t →
        (tl.tile_img.getD j []).getD i 0 =
          if tl.x + i < w ∧ tl.y + j < h then img (tl.x + i) (tl.y + j) else 0)) ∧
    (∀ x y, x < (w ⌈/⌉ t) * t → y < (h ⌈/⌉ t) * t →
      ∃! n, n < (apply_tile_size img w h t).length ∧
        tile_contains ((apply_tile_size img w h t).getD n (grid_tile img w h t 0 0)) t x y) ∧
    (∀ x y, x < w → y < h →
      ∃! n, n < (apply_tile_size img w h t).length ∧
        tile_contains ((apply_tile_size img w h t).getD n (grid_tile img w h t 0 0)) t x y) := by
  refine ⟨?_, ?_, ?_, ?_, ?_⟩
  · rw [apply_tile_size_length, natCeil_eq_ceilDiv w t ht, natCeil_eq_ceilDiv h t ht, mul_comm]
  · intro n hn
    rw [apply_tile_size_length] at hn
    exact apply_tile_size_getD img w h t n _ hn
  · intro tl htl
    rw [apply_tile_size_eq] at htl
    obtain ⟨n, _, rfl⟩ := List.mem_map.1 htl
    refine ⟨rfl, rfl, ?_, ?_, ?_⟩
    · simp [grid_tile, crop_tile]
    · intro prow hprow
      simp only [grid_tile, crop_tile, List.mem_map] at hprow
      obtain ⟨j, _, rfl⟩ := hprow
      simp
    · intro i j hi hj
      simp [grid_tile, crop_tile, padded_pixel, List.getD_eq_getElem?_getD,
        List.getElem?_map, List.getElem?_range, hi, hj]
  · intro x y hx hy
    exact grid_cover_unique img w h t ht x y hx hy
  · intro x y hx hy
    exact grid_cover_unique img w h t ht x y
      (lt_of_lt_of_le hx (le_ceilDiv_mul w t ht))
      (lt_of_lt_of_le hy (le_ceilDiv_mul h t ht))

/-- Witness for C4 on a concrete 5 × 3 image with tile size 2:
3 × 2 = 6 tiles. -/
theorem c4_tiling_partition_witness :
    (0 : ℕ) < 2 ∧
    ((apply_tile_size (fun x y => x + y) 5 3 2).length =
      ⌈(5 : ℚ) / (2 : ℚ)⌉₊ * ⌈(3 : ℚ) / (2 : ℚ)⌉₊ ∧
    (∀ n, n < (apply_tile_size (fun x y => x + y) 5 3 2).length →
      (apply_tile_size (fun x y => x + y) 5 3 2).getD n (grid_tile (fun x y => x + y) 5 3 2 0 0) =
        grid_tile (fun x y => x + y) 5 3 2 (n / (5 ⌈/⌉ 2)) (n % (5 ⌈/⌉ 2))) ∧
    (∀ tl ∈ apply_tile_size (fun x y => x + y) 5 3 2,
      tl.x = tl.col * 2 ∧ tl.y = tl.row * 2 ∧
      tl.tile_img.length = 2 ∧ (∀ prow ∈ tl.tile_img, prow.length = 2) ∧
      (∀ i j, i < 2 → j < 2 →
        (tl.tile_img.getD j []).getD i 0 =
          if tl.x + i < 5 ∧ tl.y + j < 3 then (tl.x + i) + (tl.y + j) else 0)) ∧
    (∀ x y, x < (5 ⌈/⌉ 2) * 2 → y < (3 ⌈/⌉ 2) * 2 →
      ∃! n, n < (apply_tile_size (fun x y => x + y) 5 3 2).length ∧
        tile_contains ((apply_tile_size (fun x y => x + y) 5 3 2).getD n
          (grid_tile (fun x y => x + y) 5 3 2 0 0)) 2 x y) ∧
    (∀ x y, x < 5 → y < 3 →
      ∃! n, n < (apply_tile_size (fun x y => x + y) 5 3 2).length ∧
        tile_contains ((apply_tile_size (fun x y => x + y) 5 3 2).getD n
          (grid_tile (fun x y => x + y) 5 3 2 0 0)) 2 x y)) :=
  ⟨by decide, c4_tiling_partition (fun x y => x + y) 5 3 2 (by decide)⟩

/-! ## Tile-size validation and the standalone batch tiler

`validate_tile_size` parses the GUI entry (`none` models an unparsable
string); a parsed value ≤ 0 raises `ValueError`, which its own handler
catches by showing an error box and keeping the previous size (the entry
is reset); a positive value is adopted.  `apply_tile_size` then proceeds
with whatever `self.app.tile_size` holds.

`extract_tiles` of the standalone batch classifier computes
`rows = height // tile_size`, `cols = width // tile_size` (floor
division, no padding) and crops tile `(i, j)` from the unpadded image; it
performs no tile-size validation of any kind. -/

def validate_tile_size (current : ℕ) (proposed : Option ℤ) : ℕ :=
  match proposed with
  | none => current
  | some s => if s ≤ 0 then current else s.toNat

def extract_tiles (img : ℕ → ℕ → ℕ) (w h t : ℕ) : List (List (List ℕ) × ℕ × ℕ) :=
  (List.range (h / t)).flatMap (fun i =>
    (List.range (w / t)).map (fun j => (crop_tile img (j * t) (i * t) t, i, j)))

lemma extract_tiles_length (img : ℕ → ℕ → ℕ) (w h t : ℕ) :
    (extract_tiles img w h t).length = (h / t) * (w / t) := by
  rw [extract_tiles, grid_flatMap]
  simp

/-- C6 (counterexample): with a 512 × 256 image and
`tile_size = 256 = min(width, height)`, the standalone batch tiler does
not fail — it silently produces 2 tiles, so no `InvalidConfiguration`
error precedes tile production when `tile_size ≥ min(width, height)`. -/
theorem c6_no_min_dimension_validation :
    (256 : ℕ) ≥ min 512 256 ∧
    (extract_tiles (fun _ _ => 0) 512 256 256).length = 2 ∧
    extract_tiles (fun _ _ => 0) 512 256 256 ≠ [] := by
  refine ⟨by norm_num, ?_, ?_⟩
  · rw [extract_tiles_length]
  · intro hnil
    have hlen := extract_tiles_length (fun _ _ => (0 : ℕ)) 512 256 256
    rw [hnil] at hlen
    simp at hlen

/-- C6 (amended): the GUI validator never lets a non-positive size take
effect — it keeps the previous (positive) size, and tiling then proceeds
with that previous size; the standalone batch mode performs no tile-size
validation: for any positive `tile_size`, even one ≥ `min(width, height)`,
`extract_tiles` returns `(height // t) * (width // t)` tiles (possibly
zero) without any error. -/
theorem c6_amended_validation (current : ℕ) (s : ℤ) (img : ℕ → ℕ → ℕ) (w h t : ℕ)
    (hc : 0 < current) (hs : s ≤ 0) (ht : 0 < t) :
    validate_tile_size current (some s) = current ∧
    0 < validate_tile_size current (some s) ∧
    validate_tile_size current none = current ∧
    (extract_tiles img w h t).length = (h / t) * (w / t) := by
  refine ⟨?_, ?_, rfl, extract_tiles_length img w h t⟩
  · show (if s ≤ 0 then current else s.toNat) = current
    rw [if_pos hs]
  · show 0 < (if s ≤ 0 then current else s.toNat)
    rw [if_pos hs]
    exact hc

/-- Witness for the amended C6: previous size 100, rejected entry −5,
batch tiling of a 512 × 256 image at tile size 256. -/
theorem c6_amended_validation_witness :
    (0 : ℕ) < 100 ∧ (-5 : ℤ) ≤ 0 ∧ (0 : ℕ) < 256 ∧
    (validate_tile_size 100 (some (-5)) = 100 ∧
     0 < validate_tile_size 100 (some (-5)) ∧
     validate_tile_size 100 none = 100 ∧
     (extract_tiles (fun _ _ => 0) 512 256 256).length = (256 / 256) * (512 / 256)) :=
  ⟨by decide, by decide, by decide,
    c6_amended_validation 100 (-5) (fun _ _ => 0) 512 256 256 (by decide) (by decide) (by decide)⟩

/-! ## Mask exporter (`save_mask_only`)

The mask raster is `np.full((height, width), 255)` over the padded canvas;
for each tile whose classification is neither empty nor `Cloud`, the
rectangle `[y1:y2, x1:x2]` with `x2 = min(x1 + tile_size, width)` and
`y2 = min(y1 + tile_size, height)` is assigned
`category_values.get(category, 255)`.  The sequence of array assignments
is modelled as a left fold in which a later write that covers a pixel
overrides earlier values. -/

structure MaskWrite where
  x1 : ℕ
  y1 : ℕ
  x2 : ℕ
  y2 : ℕ
  val : ℕ

def write_contains (wr : MaskWrite) (x y : ℕ) : Prop :=
  wr.x1 ≤ x ∧ x < wr.x2 ∧ wr.y1 ≤ y ∧ y < wr.y2

instance (wr : MaskWrite) (x y : ℕ) : Decidable (write_contains wr x y) := by
  unfold write_contains
  infer_instance

def mask_writes (tiles : List GridTile) (labels : List String)
    (category_values : List (String × ℕ)) (t width height : ℕ) : List MaskWrite :=
  (tiles.zip labels).filterMap (fun tl =>
    if tl.2 = "" ∨ tl.2 = "Cloud" then none
    else some { x1 := tl.1.x, y1 := tl.1.y,
                x2 := min (tl.1.x + t) width, y2 := min (tl.1.y + t) height,
                val := (category_values.lookup tl.2).getD 255 })

def mask_value (ws : List MaskWrite) (d : ℕ) (x y : ℕ) : ℕ :=
  ws.foldl (fun acc wr => if write_contains wr x y then wr.val else acc) d

/-- The full mask-export pipeline of `save_mask_only`: the tile grid of
the current (padded) image, the parallel classification list, the
category→value table, default 255, evaluated at pixel `(x, y)`. -/
def save_mask_only (img : ℕ → ℕ → ℕ) (w h t : ℕ) (labels : List String)
    (category_values : List (String × ℕ)) (x y : ℕ) : ℕ :=
  mask_value (mask_writes (apply_tile_size img w h t) labels category_values t
    ((w ⌈/⌉ t) * t) ((h ⌈/⌉ t) * t)) 255 x y

lemma mask_value_of_not_contains (ws : List MaskWrite) (d x y : ℕ)
    (h : ∀ wr ∈ ws, ¬write_contains wr x y) : mask_value ws d x y = d := by
  induction ws generalizing d with
  | nil => rfl
  | cons wr ws ih =>
    show mask_value ws (if write_contains wr x y then wr.val else d) x y = d
    rw [if_neg (h wr (List.mem_cons_self wr ws))]
    exact ih d (fun w' hw' => h w' (List.mem_cons_of_mem wr hw'))

lemma mask_value_of_unique (ws : List MaskWrite) (d x y v : ℕ)
    (hall : ∀ wr ∈ ws, write_contains wr x y → wr.val = v)
    (hex : ∃ wr ∈ ws, write_contains wr x y) : mask_value ws d x y = v := by
  induction ws generalizing d with
  | nil =>
    obtain ⟨wr, hwr, _⟩ := hex
    cases hwr
  | cons wr ws ih =>
    show mask_value ws (if write_contains wr x y then wr.val else d) x y = v
    by_cases hc : write_contains wr x y
    · rw [if_pos hc]
      have hv : wr.val = v := hall wr (List.mem_cons_self wr ws) hc
      by_cases hex2 : ∃ w' ∈ ws, write_contains w' x y
      · exact ih wr.val (fun w' hw' => hall w' (List.mem_cons_of_mem wr hw')) hex2
      · push_neg at hex2
        rw [mask_value_of_not_contains ws wr.val x y hex2]
        exact hv
    · rw [if_neg hc]
      obtain ⟨w', hw', hcw'⟩ := hex
      rcases List.mem_cons.1 hw' with rfl | hw'
      · exact absurd hcw' hc
      · exact ih d (fun w'' hw'' => hall w'' (List.mem_cons_of_mem wr hw'')) ⟨w', hw', hcw'⟩

lemma zip_getD {α β : Type} (l1 : List α) (l2 : List β) (k : ℕ) (d1 : α) (d2 : β)
    (h1 : k < l1.length) (h2 : k < l2.length) :
    (l1.zip l2).getD k (d1, d2) = (l1.getD k d1, l2.getD k d2) := by
  have hz : k < (l1.zip l2).length := by
    rw [List.length_zip]
    omega
  rw [List.getD_eq_getElem _ _ hz, List.getD_eq_getElem _ _ h1, List.getD_eq_getElem _ _ h2,
    List.getElem_zip]

/-- Every element of `mask_writes` over the tile grid is the write of a
uniquely determined tile index whose label is a real category. -/
lemma mask_writes_spec (img : ℕ → ℕ → ℕ) (w h t : ℕ) (labels : List String)
    (cv : List (String × ℕ)) (pw ph : ℕ) (wr : MaskWrite)
    (hw : wr ∈ mask_writes (apply_tile_size img w h t) labels cv t pw ph) :
    ∃ k, k < (apply_tile_size img w h t).length ∧ k < labels.length ∧
      labels.getD k "" ≠ "" ∧ labels.getD k "" ≠ "Cloud" ∧
      wr = { x1 := (k % (w ⌈/⌉ t)) * t, y1 := (k / (w ⌈/⌉ t)) * t,
             x2 := min ((k % (w ⌈/⌉ t)) * t + t) pw,
             y2 := min ((k / (w ⌈/⌉ t)) * t + t) ph,
             val := (cv.lookup (labels.getD k "")).getD 255 } := by
  obtain ⟨tl, htl, heq⟩ := List.mem_filterMap.1 hw
  obtain ⟨k, hk, hkeq⟩ := List.mem_iff_getElem.1 htl
  have hk1 : k < (apply_tile_size img w h t).length := by
    rw [List.length_zip] at hk
    omega
  have hk2 : k < labels.length := by
    rw [List.length_zip] at hk
    omega
  have htX : k < ((h ⌈/⌉ t) * (w ⌈/⌉ t)) := by
    rwa [apply_tile_size_length] at hk1
  have hkd : tl = ((apply_tile_size img w h t).getD k (grid_tile img w h t 0 0),
      labels.getD k "") := by
    rw [← hkeq, ← zip_getD _ _ k _ _ hk1 hk2,
      List.getD_eq_getElem _ _ hk]
  subst hkd
  split at heq
  · exact absurd heq (by simp)
  · rename_i hcond
    refine ⟨k, hk1, hk2, ?_, ?_, ?_⟩
    · exact fun hemp => hcond (Or.inl hemp)
    · exact fun hcl => hcond (Or.inr hcl)
    · have hs := Option.some.inj heq
      rw [← hs, apply_tile_size_getD img w h t k _ htX]
      rfl

/-- Conversely, a tile index with a real label contributes its write. -/
lemma mask_writes_mem_of (img : ℕ → ℕ → ℕ) (w h t : ℕ) (labels : List String)
    (cv : List (String × ℕ)) (pw ph : ℕ) (k : ℕ)
    (hk1 : k < (apply_tile_size img w h t).length) (hk2 : k < labels.length)
    (hr1 : labels.getD k "" ≠ "") (hr2 : labels.getD k "" ≠ "Cloud") :
    ({ x1 := (k % (w ⌈/⌉ t)) * t, y1 := (k / (w ⌈/⌉ t)) * t,
       x2 := min ((k % (w ⌈/⌉ t)) * t + t) pw,
       y2 := min ((k / (w ⌈/⌉ t)) * t + t) ph,
       val := (cv.lookup (labels.getD k "")).getD 255 } : MaskWrite) ∈
      mask_writes (apply_tile_size img w h t) labels cv t pw ph := by
  have htX : k < ((h ⌈/⌉ t) * (w ⌈/⌉ t)) := by
    rwa [apply_tile_size_length] at hk1
  have hz : k < ((apply_tile_size img w h t).zip labels).length := by
    rw [List.length_zip]
    omega
  apply List.mem_filterMap.2
  refine ⟨((apply_tile_size img w h t).getD k (grid_tile img w h t 0 0), labels.getD k ""), ?_, ?_⟩
  · rw [← zip_getD _ _ k _ _ hk1 hk2, List.getD_eq_getElem _ _ hz]
    exact List.getElem_mem hz
  · have hcond : ¬((((apply_tile_size img w h t).getD k (grid_tile img w h t 0 0),
        labels.getD k "") : GridTile × String).2 = "" ∨
        (((apply_tile_size img w h t).getD k (grid_tile img w h t 0 0),
        labels.getD k "") : GridTile × String).2 = "Cloud") := by
      intro hor
      exact hor.elim hr1 hr2
    rw [if_neg hcond, apply_tile_size_getD img w h t k _ htX]
    rfl

lemma cell_unique_pt {t q a x : ℕ} (ht : 0 < t) (hq1 : q * t ≤ x) (hq2 : x < q * t + t)
    (ha1 : a * t ≤ x) (ha2 : x < a * t + t) : q = a := by
  have hb : x - a * t < t := by omega
  exact cell_unique ht hb (by omega) (by omega)

lemma grid_index_unique (w h t : ℕ) (ht : 0 < t) (n k x y : ℕ)
    (hnx1 : (n % (w ⌈/⌉ t)) * t ≤ x) (hnx2 : x < (n % (w ⌈/⌉ t)) * t + t)
    (hny1 : (n / (w ⌈/⌉ t)) * t ≤ y) (hny2 : y < (n / (w ⌈/⌉ t)) * t + t)
    (hkx1 : (k % (w ⌈/⌉ t)) * t ≤ x) (hkx2 : x < (k % (w ⌈/⌉ t)) * t + t)
    (hky1 : (k / (w ⌈/⌉ t)) * t ≤ y) (hky2 : y < (k / (w ⌈/⌉ t)) * t + t) : k = n := by
  have hcol : k % (w ⌈/⌉ t) = n % (w ⌈/⌉ t) := cell_unique_pt ht hkx1 hkx2 hnx1 hnx2
  have hrow : k / (w ⌈/⌉ t) = n / (w ⌈/⌉ t) := cell_unique_pt ht hky1 hky2 hny1 hny2
  have h1 := Nat.div_add_mod' k (w ⌈/⌉ t)
  have h2 := Nat.div_add_mod' n (w ⌈/⌉ t)
  rw [hrow, hcol] at h1
  omega

lemma tile_cell_x_bound (w h t n : ℕ) (hn : n < (h ⌈/⌉ t) * (w ⌈/⌉ t)) :
    (n % (w ⌈/⌉ t)) * t + t ≤ (w ⌈/⌉ t) * t := by
  have htX : 0 < w ⌈/⌉ t := by
    rcases Nat.eq_zero_or_pos (w ⌈/⌉ t) with h0 | h0
    · rw [h0, mul_zero] at hn
      omega
    · exact h0
  have hm : n % (w ⌈/⌉ t) < w ⌈/⌉ t := Nat.mod_lt n htX
  calc (n % (w ⌈/⌉ t)) * t + t = (n % (w ⌈/⌉ t) + 1) * t := by ring
  _ ≤ (w ⌈/⌉ t) * t := Nat.mul_le_mul_right t (by omega)

lemma tile_cell_y_bound (w h t n : ℕ) (hn : n < (h ⌈/⌉ t) * (w ⌈/⌉ t)) :
    (n / (w ⌈/⌉ t)) * t + t ≤ (h ⌈/⌉ t) * t := by
  have htX : 0 < w ⌈/⌉ t := by
    rcases Nat.eq_zero_or_pos (w ⌈/⌉ t) with h0 | h0
    · rw [h0, mul_zero] at hn
      omega
    · exact h0
  have hd : n / (w ⌈/⌉ t) < h ⌈/⌉ t := (Nat.div_lt_iff_lt_mul htX).2 (by omega)
  calc (n / (w ⌈/⌉ t)) * t + t = (n / (w ⌈/⌉ t) + 1) * t := by ring
  _ ≤ (h ⌈/⌉ t) * t := Nat.mul_le_mul_right t (by omega)

/-- A pixel inside tile `n`'s (unclipped) footprint reads back that tile's
category value when the label is real, and the 255 default when the label
is empty or `Cloud`. -/
lemma save_mask_footprint (img : ℕ → ℕ → ℕ) (w h t : ℕ) (labels : List String)
    (cv : List (String × ℕ)) (ht : 0 < t) (n x y : ℕ)
    (hn : n < (apply_tile_size img w h t).length) (hnl : n < labels.length)
    (hx1 : (n % (w ⌈/⌉ t)) * t ≤ x) (hx2 : x < (n % (w ⌈/⌉ t)) * t + t)
    (hy1 : (n / (w ⌈/⌉ t)) * t ≤ y) (hy2 : y < (n / (w ⌈/⌉ t)) * t + t) :
    (labels.getD n "" ≠ "" → labels.getD n "" ≠ "Cloud" →
      save_mask_only img w h t labels cv x y = (cv.lookup (labels.getD n "")).getD 255) ∧
    ((labels.getD n "" = "" ∨ labels.getD n "" = "Cloud") →
      save_mask_only img w h t labels cv x y = 255) := by
  have hn' : n < (h ⌈/⌉ t) * (w ⌈/⌉ t) := by
    rwa [apply_tile_size_length] at hn
  have hxb := tile_cell_x_bound w h t n hn'
  have hyb := tile_cell_y_bound w h t n hn'
  constructor
  · intro hr1 hr2
    apply mask_value_of_unique
    · intro wr hwr hcont
      obtain ⟨k, hk1, hk2, hkr1, hkr2, rfl⟩ := mask_writes_spec img w h t labels cv _ _ wr hwr
      simp only [write_contains] at hcont
      obtain ⟨hc1, hc2, hc3, hc4⟩ := hcont
      have hkeq : k = n := grid_index_unique w h t ht n k x y hx1 hx2 hy1 hy2
        hc1 (lt_of_lt_of_le hc2 (min_le_left _ _))
        hc3 (lt_of_lt_of_le hc4 (min_le_left _ _))
      rw [hkeq]
    · refine ⟨_, mask_writes_mem_of img w h t labels cv ((w ⌈/⌉ t) * t) ((h ⌈/⌉ t) * t)
        n hn hnl hr1 hr2, ?_⟩
      simp only [write_contains]
      exact ⟨hx1, lt_min hx2 (lt_of_lt_of_le hx2 hxb),
        hy1, lt_min hy2 (lt_of_lt_of_le hy2 hyb)⟩
  · intro hor
    apply mask_value_of_not_contains
    intro wr hwr hcont
    obtain ⟨k, hk1, hk2, hkr1, hkr2, rfl⟩ := mask_writes_spec img w h t labels cv _ _ wr hwr
    simp only [write_contains] at hcont
    obtain ⟨hc1, hc2, hc3, hc4⟩ := hcont
    have hkeq : k = n := grid_index_unique w h t ht n k x y hx1 hx2 hy1 hy2
      hc1 (lt_of_lt_of_le hc2 (min_le_left _ _))
      hc3 (lt_of_lt_of_le hc4 (min_le_left _ _))
    rw [hkeq] at hkr1 hkr2
    rcases hor with he | hc
    · exact hkr1 he
    · exact hkr2 hc

/-- The default category→value table: each category mapped to its ordinal
index, `{cat: i for i, cat in enumerate(CATEGORIES)}`. -/
def default_category_values : List (String × ℕ) :=
  CATEGORIES.enum.map (fun p => (p.2, p.1))

/-- C7: reading the exported mask at the center of tile `n`'s footprint
recovers the mapped value of the tile's category; a tile labeled `Cloud`
or left empty leaves its footprint at the default 255. -/
theorem c7_mask_round_trip (img : ℕ → ℕ → ℕ) (w h t : ℕ) (labels : List String)
    (cv : List (String × ℕ)) (ht : 0 < t)
    (hlen : labels.length = (apply_tile_size img w h t).length)
    (n : ℕ) (hn : n < (apply_tile_size img w h t).length) :
    (∀ v, labels.getD n "" ∈ CATEGORIES → cv.lookup (labels.getD n "") = some v →
      save_mask_only img w h t labels cv
        (((apply_tile_size img w h t).getD n (grid_tile img w h t 0 0)).x + t / 2)
        (((apply_tile_size img w h t).getD n (grid_tile img w h t 0 0)).y + t / 2) = v) ∧
    ((labels.getD n "" = "Cloud" ∨ labels.getD n "" = "") →
      save_mask_only img w h t labels cv
        (((apply_tile_size img w h t).getD n (grid_tile img w h t 0 0)).x + t / 2)
        (((apply_tile_size img w h t).getD n (grid_tile img w h t 0 0)).y + t / 2) = 255) := by
  have hn' : n < (h ⌈/⌉ t) * (w ⌈/⌉ t) := by
    rwa [apply_tile_size_length] at hn
  have hnl : n < labels.length := by omega
  have hgd := apply_tile_size_getD img w h t n (grid_tile img w h t 0 0) hn'
  have hhalf : t / 2 < t := Nat.div_lt_self ht (by norm_num)
  have hfoot := save_mask_footprint img w h t labels cv ht n
    ((n % (w ⌈/⌉ t)) * t + t / 2) ((n / (w ⌈/⌉ t)) * t + t / 2) hn hnl
    (by omega) (by omega) (by omega) (by omega)
  constructor
  · intro v hmem hlook
    have hr1 : labels.getD n "" ≠ "" := by
      intro he
      rw [he] at hmem
      exact absurd hmem (by decide)
    have hr2 : labels.getD n "" ≠ "Cloud" := by
      intro hc
      rw [hc] at hmem
      exact absurd hmem (by decide)
    rw [hgd]
    show save_mask_only img w h t labels cv
      ((n % (w ⌈/⌉ t)) * t + t / 2) ((n / (w ⌈/⌉ t)) * t + t / 2) = v
    rw [hfoot.1 hr1 hr2, hlook]
    rfl
  · intro hor
    rw [hgd]
    show save_mask_only img w h t labels cv
      ((n % (w ⌈/⌉ t)) * t + t / 2) ((n / (w ⌈/⌉ t)) * t + t / 2) = 255
    exact hfoot.2 hor.symm

/-- Witness for C7: a 2 × 2 image, tile size 2 (a single tile), label
`Forest`, default value table (`Forest ↦ 1`). -/
theorem c7_mask_round_trip_witness :
    (0 : ℕ) < 2 ∧
    (["Forest"] : List String).length = (apply_tile_size (fun _ _ => 0) 2 2 2).length ∧
    (0 : ℕ) < (apply_tile_size (fun _ _ => 0) 2 2 2).length ∧
    ((∀ v, (["Forest"] : List String).getD 0 "" ∈ CATEGORIES →
      default_category_values.lookup ((["Forest"] : List String).getD 0 "") = some v →
      save_mask_only (fun _ _ => 0) 2 2 2 ["Forest"] default_category_values
        (((apply_tile_size (fun _ _ => 0) 2 2 2).getD 0 (grid_tile (fun _ _ => 0) 2 2 2 0 0)).x + 2 / 2)
        (((apply_tile_size (fun _ _ => 0) 2 2 2).getD 0 (grid_tile (fun _ _ => 0) 2 2 2 0 0)).y + 2 / 2) = v) ∧
    (((["Forest"] : List String).getD 0 "" = "Cloud" ∨ (["Forest"] : List String).getD 0 "" = "") →
      save_mask_only (fun _ _ => 0) 2 2 2 ["Forest"] default_category_values
        (((apply_tile_size (fun _ _ => 0) 2 2 2).getD 0 (grid_tile (fun _ _ => 0) 2 2 2 0 0)).x + 2 / 2)
        (((apply_tile_size (fun _ _ => 0) 2 2 2).getD 0 (grid_tile (fun _ _ => 0) 2 2 2 0 0)).y + 2 / 2) = 255)) :=
  ⟨by decide, by rw [apply_tile_size_length]; decide, by rw [apply_tile_size_length]; decide,
    c7_mask_round_trip (fun _ _ => 0) 2 2 2 ["Forest"] default_category_values
      (by decide) (by rw [apply_tile_size_length]; decide) 0 (by rw [apply_tile_size_length]; decide)⟩

/-- C10: the padded canvas (and hence the exported mask raster) has
dimensions that are the ceiling multiples `ceil(w/t)*t × ceil(h/t)*t`,
at least as large as, and less than one tile larger than, the original
image; the clip bounds `min(x1 + tile_size, width)` and
`min(y1 + tile_size, height)` of `save_mask_only` are no-ops; and every
pixel of a real-labeled tile's full `t × t` footprint — including pixels
of the zero-padded border at `x ≥ w` or `y ≥ h` — receives the category's
mapped value rather than the 255 fill. -/
theorem c10_padded_mask_semantics (img : ℕ → ℕ → ℕ) (w h t : ℕ) (labels : List String)
    (cv : List (String × ℕ)) (ht : 0 < t)
    (hlen : labels.length = (apply_tile_size img w h t).length) :
    (w ≤ (w ⌈/⌉ t) * t ∧ (w ⌈/⌉ t) * t < w + t ∧
     h ≤ (h ⌈/⌉ t) * t ∧ (h ⌈/⌉ t) * t < h + t) ∧
    (∀ n, n < (apply_tile_size img w h t).length →
      min (((apply_tile_size img w h t).getD n (grid_tile img w h t 0 0)).x + t) ((w ⌈/⌉ t) * t) =
        ((apply_tile_size img w h t).getD n (grid_tile img w h t 0 0)).x + t ∧
      min (((apply_tile_size img w h t).getD n (grid_tile img w h t 0 0)).y + t) ((h ⌈/⌉ t) * t) =
        ((apply_tile_size img w h t).getD n (grid_tile img w h t 0 0)).y + t) ∧
    (∀ n, n < (apply_tile_size img w h t).length → ∀ v,
      labels.getD n "" ≠ "" → labels.getD n "" ≠ "Cloud" →
      cv.lookup (labels.getD n "") = some v →
      ∀ x y,
        ((apply_tile_size img w h t).getD n (grid_tile img w h t 0 0)).x ≤ x →
        x < ((apply_tile_size img w h t).getD n (grid_tile img w h t 0 0)).x + t →
        ((apply_tile_size img w h t).getD n (grid_tile img w h t 0 0)).y ≤ y →
        y < ((apply_tile_size img w h t).getD n (grid_tile img w h t 0 0)).y + t →
        save_mask_only img w h t labels cv x y = v) := by
  refine ⟨⟨le_ceilDiv_mul w t ht, ceilDiv_mul_lt_add w t ht,
    le_ceilDiv_mul h t ht, ceilDiv_mul_lt_add h t ht⟩, ?_, ?_⟩
  · intro n hn
    have hn' : n < (h ⌈/⌉ t) * (w ⌈/⌉ t) := by
      rwa [apply_tile_size_length] at hn
    rw [apply_tile_size_getD img w h t n _ hn']
    constructor
    · exact min_eq_left (tile_cell_x_bound w h t n hn')
    · exact min_eq_left (tile_cell_y_bound w h t n hn')
  · intro n hn v hr1 hr2 hlook x y hx1 hx2 hy1 hy2
    have hn' : n < (h ⌈/⌉ t) * (w ⌈/⌉ t) := by
      rwa [apply_tile_size_length] at hn
    have hnl : n < labels.length := by omega
    rw [apply_tile_size_getD img w h t n _ hn'] at hx1 hx2 hy1 hy2
    have hfoot := save_mask_footprint img w h t labels cv ht n x y hn hnl hx1 hx2 hy1 hy2
    rw [hfoot.1 hr1 hr2, hlook]
    rfl

/-- Witness for C10: a 3 × 3 image with tile size 2 (padded to 4 × 4,
four tiles). -/
theorem c10_padded_mask_semantics_witness :
    (0 : ℕ) < 2 ∧
    (["Forest", "Pasture", "River", "SeaLake"] : List String).length =
      (apply_tile_size (fun _ _ => 0) 3 3 2).length ∧
    (((3 : ℕ) ≤ (3 ⌈/⌉ 2) * 2 ∧ (3 ⌈/⌉ 2) * 2 < 3 + 2 ∧
      (3 : ℕ) ≤ (3 ⌈/⌉ 2) * 2 ∧ (3 ⌈/⌉ 2) * 2 < 3 + 2) ∧
    (∀ n, n < (apply_tile_size (fun _ _ => 0) 3 3 2).length →
      min (((apply_tile_size (fun _ _ => 0) 3 3 2).getD n (grid_tile (fun _ _ => 0) 3 3 2 0 0)).x + 2) ((3 ⌈/⌉ 2) * 2) =
        ((apply_tile_size (fun _ _ => 0) 3 3 2).getD n (grid_tile (fun _ _ => 0) 3 3 2 0 0)).x + 2 ∧
      min (((apply_tile_size (fun _ _ => 0) 3 3 2).getD n (grid_tile (fun _ _ => 0) 3 3 2 0 0)).y + 2) ((3 ⌈/⌉ 2) * 2) =
        ((apply_tile_size (fun _ _ => 0) 3 3 2).getD n (grid_tile (fun _ _ => 0) 3 3 2 0 0)).y + 2) ∧
    (∀ n, n < (apply_tile_size (fun _ _ => 0) 3 3 2).length → ∀ v,
      (["Forest", "Pasture", "River", "SeaLake"] : List String).getD n "" ≠ "" →
      (["Forest", "Pasture", "River", "SeaLake"] : List String).getD n "" ≠ "Cloud" →
      default_category_values.lookup
        ((["Forest", "Pasture", "River", "SeaLake"] : List String).getD n "") = some v →
      ∀ x y,
        ((apply_tile_size (fun _ _ => 0) 3 3 2).getD n (grid_tile (fun _ _ => 0) 3 3 2 0 0)).x ≤ x →
        x < ((apply_tile_size (fun _ _ => 0) 3 3 2).getD n (grid_tile (fun _ _ => 0) 3 3 2 0 0)).x + 2 →
        ((apply_tile_size (fun _ _ => 0) 3 3 2).getD n (grid_tile (fun _ _ => 0) 3 3 2 0 0)).y ≤ y →
        y < ((apply_tile_size (fun _ _ => 0) 3 3 2).getD n (grid_tile (fun _ _ => 0) 3 3 2 0 0)).y + 2 →
        save_mask_only (fun _ _ => 0) 3 3 2 ["Forest", "Pasture", "River", "SeaLake"]
          default_category_values x y = v)) :=
  ⟨by decide, by rw [apply_tile_size_length]; decide,
    c10_padded_mask_semantics (fun _ _ => 0) 3 3 2 ["Forest", "Pasture", "River", "SeaLake"]
      default_category_values (by decide) (by rw [apply_tile_size_length]; decide)⟩

/-! ## Accuracy evaluator (`compute_accuracy_matrix`, `_compute_and_show_matrix`)

Rasters are lists of pixel rows.  `confusion[i][j]` counts aligned pixels
whose ground-truth value is `known_values[i]` and predicted value is
`known_values[j]`; the metrics reproduce the source's guarded divisions
(percentages as exact rationals).  `compute_accuracy_matrix` rejects
rasters of different shape before anything is computed, and the mapping
dialog rejects fewer than 2 mapped values before calling the matrix
computation. -/

def flatten_raster (img : List (List ℕ)) : List ℕ := img.flatMap (fun r => r)

def pixel_pairs (gt pred : List (List ℕ)) : List (ℕ × ℕ) :=
  (flatten_raster gt).zip (flatten_raster pred)

def confusion_entry (gt pred : List (List ℕ)) (gv pv : ℕ) : ℕ :=
  (pixel_pairs gt pred).countP (fun ab => ab.1 == gv && ab.2 == pv)

def confusion_matrix (gt pred : List (List ℕ)) (known : List ℕ) : List (List ℕ) :=
  known.map (fun gv => known.map (fun pv => confusion_entry gt pred gv pv))

def mat_trace (m : List (List ℕ)) : ℕ := (m.enum.map (fun p => (p.2).getD p.1 0)).sum

def mat_total (m : List (List ℕ)) : ℕ := (m.map List.sum).sum

def overall_accuracy (m : List (List ℕ)) : ℚ :=
  if mat_total m > 0 then (mat_trace m : ℚ) / (mat_total m : ℚ) * 100 else 0

def row_sum (m : List (List ℕ)) (i : ℕ) : ℕ := (m.getD i []).sum

def col_sum (m : List (List ℕ)) (i : ℕ) : ℕ := (m.map (fun r => r.getD i 0)).sum

def tp_of (m : List (List ℕ)) (i : ℕ) : ℕ := (m.getD i []).getD i 0

def recall_of (m : List (List ℕ)) (i : ℕ) : ℚ :=
  if row_sum m i > 0 then (tp_of m i : ℚ) / (row_sum m i : ℚ) * 100 else 0

def precision_of (m : List (List ℕ)) (i : ℕ) : ℚ :=
  if col_sum m i > 0 then (tp_of m i : ℚ) / (col_sum m i : ℚ) * 100 else 0

def f1_of (m : List (List ℕ)) (i : ℕ) : ℚ :=
  if precision_of m i + recall_of m i > 0 then
    2 * precision_of m i * recall_of m i / (precision_of m i + recall_of m i)
  else 0

inductive EvalError where
  | dimensionMismatch : EvalError
  | insufficientClasses : EvalError

def raster_shape (img : List (List ℕ)) : ℕ × ℕ := (img.length, (img.headD []).length)

def compute_accuracy_matrix (pred gt : List (List ℕ)) (known : List ℕ) :
    Except EvalError (List (List ℕ) × ℚ) :=
  if raster_shape pred ≠ raster_shape gt then Except.error EvalError.dimensionMismatch
  else if known.length < 2 then Except.error EvalError.insufficientClasses
  else Except.ok (confusion_matrix gt pred known,
    overall_accuracy (confusion_matrix gt pred known))

def demo_gt : List (List ℕ) := [[1, 1], [2, 2]]

def demo_pred : List (List ℕ) := [[1, 2], [2, 2]]

/-- C3: the concrete evaluation scenario — ground truth `[[1,1],[2,2]]`,
prediction `[[1,2],[2,2]]`, known values `[1, 2]` (classes A, B).  The
confusion matrix is `[[1,1],[0,2]]`; overall accuracy 75 %; class A:
TP 1, recall 50 %, precision 100 %, F1 = 200/3 % (66.67 % at two
decimals); class B: TP 2, recall 100 %, precision 200/3 % (66.67 %),
F1 = 80 %; the evaluation pipeline accepts the equal-shape rasters. -/
theorem c3_accuracy_matrix_scenario :
    confusion_matrix demo_gt demo_pred [1, 2] = [[1, 1], [0, 2]] ∧
    compute_accuracy_matrix demo_pred demo_gt [1, 2] =
      Except.ok ([[1, 1], [0, 2]], 75) ∧
    overall_accuracy (confusion_matrix demo_gt demo_pred [1, 2]) = 75 ∧
    tp_of (confusion_matrix demo_gt demo_pred [1, 2]) 0 = 1 ∧
    recall_of (confusion_matrix demo_gt demo_pred [1, 2]) 0 = 50 ∧
    precision_of (confusion_matrix demo_gt demo_pred [1, 2]) 0 = 100 ∧
    f1_of (confusion_matrix demo_gt demo_pred [1, 2]) 0 = 200 / 3 ∧
    round (f1_of (confusion_matrix demo_gt demo_pred [1, 2]) 0 * 100) = (6667 : ℤ) ∧
    tp_of (confusion_matrix demo_gt demo_pred [1, 2]) 1 = 2 ∧
    recall_of (confusion_matrix demo_gt demo_pred [1, 2]) 1 = 100 ∧
    precision_of (confusion_matrix demo_gt demo_pred [1, 2]) 1 = 200 / 3 ∧
    round (precision_of (confusion_matrix demo_gt demo_pred [1, 2]) 1 * 100) = (6667 : ℤ) ∧
    f1_of (confusion_matrix demo_gt demo_pred [1, 2]) 1 = 80 := by
  have hM : confusion_matrix demo_gt demo_pred [1, 2] = [[1, 1], [0, 2]] := by decide
  have htr : mat_trace [[1, 1], [0, 2]] = 3 := by decide
  have htot : mat_total [[1, 1], [0, 2]] = 4 := by decide
  have hoa : overall_accuracy [[1, 1], [0, 2]] = 75 := by
    unfold overall_accuracy
    rw [htr, htot]
    norm_num
  have htp0 : tp_of [[1, 1], [0, 2]] 0 = 1 := by decide
  have htp1 : tp_of [[1, 1], [0, 2]] 1 = 2 := by decide
  have hrow0 : row_sum [[1, 1], [0, 2]] 0 = 2 := by decide
  have hrow1 : row_sum [[1, 1], [0, 2]] 1 = 2 := by decide
  have hcol0 : col_sum [[1, 1], [0, 2]] 0 = 1 := by decide
  have hcol1 : col_sum [[1, 1], [0, 2]] 1 = 3 := by decide
  have hrec0 : recall_of [[1, 1], [0, 2]] 0 = 50 := by
    unfold recall_of
    rw [hrow0, htp0]
    norm_num
  have hrec1 : recall_of [[1, 1], [0, 2]] 1 = 100 := by
    unfold recall_of
    rw [hrow1, htp1]
    norm_num
  have hprec0 : precision_of [[1, 1], [0, 2]] 0 = 100 := by
    unfold precision_of
    rw [hcol0, htp0]
    norm_num
  have hprec1 : precision_of [[1, 1], [0, 2]] 1 = 200 / 3 := by
    unfold precision_of
    rw [hcol1, htp1]
    norm_num
  have hf10 : f1_of [[1, 1], [0, 2]] 0 = 200 / 3 := by
    unfold f1_of
    rw [hprec0, hrec0]
    norm_num
  have hf11 : f1_of [[1, 1], [0, 2]] 1 = 80 := by
    unfold f1_of
    rw [hprec1, hrec1]
    norm_num
  have hround : round ((200 / 3 : ℚ) * 100) = (6667 : ℤ) := by
    rw [round_eq]
    rw [Int.floor_eq_iff]
    constructor <;> norm_num
  refine ⟨hM, ?_, ?_, ?_, ?_, ?_, ?_, ?_, ?_, ?_, ?_, ?_, ?_⟩
  · unfold compute_accuracy_matrix
    rw [if_neg (by decide), if_neg (by decide), hM, hoa]
  · rw [hM]
    exact hoa
  · rw [hM]
    exact htp0
  · rw [hM]
    exact hrec0
  · rw [hM]
    exact hprec0
  · rw [hM]
    exact hf10
  · rw [hM, hf10]
    exact hround
  · rw [hM]
    exact htp1
  · rw [hM]
    exact hrec1
  · rw [hM]
    exact hprec1
  · rw [hM, hprec1]
    exact hround
  · rw [hM]
    exact hf11

/-- C8: rasters whose pixel dimensions differ are rejected with
`DimensionMismatch`; no confusion matrix (no `ok` result) is produced. -/
theorem c8_dimension_mismatch (pred gt : List (List ℕ)) (known : List ℕ)
    (hsh : raster_shape pred ≠ raster_shape gt) :
    compute_accuracy_matrix pred gt known = Except.error EvalError.dimensionMismatch ∧
    ∀ res, compute_accuracy_matrix pred gt known ≠ Except.ok res := by
  unfold compute_accuracy_matrix
  rw [if_pos hsh]
  exact ⟨rfl, fun res hok => Except.noConfusion hok⟩

/-- Witness for C8: a 1 × 1 raster against a 2 × 1 raster. -/
theorem c8_dimension_mismatch_witness :
    raster_shape [[1]] ≠ raster_shape [[1], [2]] ∧
    (compute_accuracy_matrix [[1]] [[1], [2]] [1, 2] =
      Except.error EvalError.dimensionMismatch ∧
     ∀ res, compute_accuracy_matrix [[1]] [[1], [2]] [1, 2] ≠ Except.ok res) :=
  ⟨by decide, c8_dimension_mismatch [[1]] [[1], [2]] [1, 2] (by decide)⟩
